import Mathlib

/-!
# A shallow embedding of the `ThreadPool` in `core_tests/src/threadpool.rs`

The pool consists of one unbounded MPMC channel (`crossbeam::channel`),
`num_threads` worker threads each holding a clone of the receiving endpoint
and running `while let Ok(job) = receiver.recv() { job(); }`, and the pool
struct retaining the sole `Sender` in an `Option`.

We model the concurrent system as a small-step transition system over a
`PoolState`.  A `Job` is abstracted to an identifier plus a flag saying
whether invoking it raises a panic on the worker running it (the source
does not guard `job()` against unwinding).  The ghost fields `executed`
and `lost` record, respectively, the identifiers of tasks that ran to
completion and of tasks whose invocation panicked; they model the
observable effect of a task without affecting the control flow.

Channel semantics embedded here, per crossbeam's contract:
* `send` succeeds iff at least one receiving endpoint is still alive;
  otherwise it returns a disconnect error (the code calls `.expect`, i.e.
  panics, on that branch).
* `recv` yields a buffered message when one exists; it reports
  disconnection only when the buffer is empty and every sending endpoint
  has been dropped.
* A worker thread holds its receiver clone while it runs; when the thread
  ends (normally, or by unwinding out of a panicking `job()`), that clone
  is dropped.  The receiver created in `ThreadPool::new` itself goes out
  of scope at the end of `new`, so the live receivers are exactly the
  clones of the still-running worker threads.
-/

/-- A task submitted to the pool: an opaque `FnOnce() + Send + 'static`
closure, abstracted to an identifier together with whether invoking it
panics on the worker that runs it. -/
structure Job where
  id : Nat
  panics : Bool
deriving DecidableEq, Repr

/-- The status of one worker thread.

`idle` — inside the loop, blocked in (or about to call) `receiver.recv()`;
`busy t` — currently invoking `job()` for task `t`;
`done` — `recv` reported disconnection, the `while let` loop exited and
the thread function returned normally;
`dead` — `job()` panicked and the thread unwound. -/
inductive WStatus where
  | idle : WStatus
  | busy : Job → WStatus
  | dead : WStatus
  | done : WStatus
deriving DecidableEq, Repr

/-- A worker thread still holds its cloned receiving endpoint exactly
while it is running (idle or busy); a finished or unwound thread has
dropped it. -/
def WStatus.live : WStatus → Bool
  | .idle => true
  | .busy _ => true
  | .dead => false
  | .done => false

/-- The global state of the pool system: the channel buffer (FIFO), whether
the pool's `sender: Option<Sender<Job>>` slot is still `Some`, the status
of each spawned worker thread, and the ghost observation lists. -/
structure PoolState where
  queue : List Job
  senderAlive : Bool
  workers : List WStatus
  executed : List Nat
  lost : List Nat
deriving DecidableEq, Repr

/-- Number of receiving endpoints still alive: one clone per running
worker thread. -/
def PoolState.receiversAlive (s : PoolState) : Nat :=
  (s.workers.filter WStatus.live).length

namespace ThreadPool

/-- `ThreadPool::new(num_threads)`: builds the unbounded channel, spawns
`num_threads` workers (each entering the receive loop, hence `idle`), and
stores the sole sender as `Some(sender)`.  The function is total: it
never blocks and never fails, for any `num_threads` including `0`. -/
def new (num_threads : Nat) : PoolState :=
  { queue := []
    senderAlive := true
    workers := List.replicate num_threads WStatus.idle
    executed := []
    lost := [] }

/-- The caller-visible outcome of one `ThreadPool::execute` call.

`sent` — the task was enqueued via `sender.send(..)`;
`skipped` — `self.sender` was `None`, the `if let` body was skipped and
the call returned without doing anything and without signalling anything;
`panicked` — `send` returned a disconnect error and the
`.expect("ThreadPool::execute unable to send job into queue.")` panicked. -/
inductive ExecOutcome where
  | sent : ExecOutcome
  | skipped : ExecOutcome
  | panicked : ExecOutcome
deriving DecidableEq, Repr

/-- `ThreadPool::execute(&self, task)`:

```rust
if let Some(sender) = &self.sender {
    sender.send(Box::new(task))
        .expect("ThreadPool::execute unable to send job into queue.");
}
```

`send` succeeds iff some receiving endpoint is alive. -/
def execute (s : PoolState) (t : Job) : ExecOutcome × PoolState :=
  if s.senderAlive then
    if 0 < s.receiversAlive then
      (ExecOutcome.sent, { s with queue := s.queue ++ [t] })
    else
      (ExecOutcome.panicked, s)
  else
    (ExecOutcome.skipped, s)

/-- Outcome of `ThreadPool::shutdown`: `ok` when every `join()` returned
`Ok`, `panicked` when some joined worker thread had panicked, so
`worker.join().unwrap()` itself panicked. -/
inductive ShutdownOutcome where
  | ok : ShutdownOutcome
  | panicked : ShutdownOutcome
deriving DecidableEq, Repr

/-- Whether every worker thread has terminated (so that each `join()` in
`shutdown` returns rather than blocks).  `shutdown` models the state
reached once the joins return; its blocking behaviour is expressed by
applying it to states satisfying `joinable`. -/
def joinable (s : PoolState) : Prop :=
  ∀ w ∈ s.workers, w = WStatus.dead ∨ w = WStatus.done

/-- `ThreadPool::shutdown(&mut self)`:

```rust
self.sender.take();
for worker in self.workers.drain(..) {
    worker.join().unwrap();
}
```

Taking the sender drops the sole sending endpoint.  Each `join` returns
`Err` exactly when that worker thread panicked, in which case `.unwrap()`
panics; `drain(..)` leaves the worker vector empty either way. -/
def shutdown (s : PoolState) : ShutdownOutcome × PoolState :=
  ((if s.workers.any (· == WStatus.dead) then ShutdownOutcome.panicked
    else ShutdownOutcome.ok),
   { s with senderAlive := false, workers := [] })

/-- `impl Drop for ThreadPool { fn drop(&mut self) { self.shutdown(); } }` -/
def drop (s : PoolState) : ShutdownOutcome × PoolState :=
  shutdown s

end ThreadPool

/-- One atomic event of the concurrent system.

`submit t` — some caller runs `ThreadPool::execute` and the send succeeds;
`beginShutdown` — `shutdown` executes `self.sender.take()` (the join loop
that follows is modelled by `ThreadPool.shutdown` on the quiesced state);
`recvTask i` — worker `i`, idle, dequeues the task at the head of the
buffer and starts invoking it;
`finishTask i` — worker `i` returns normally from `job()` (the ghost
`executed` records the task identifier) and loops back to `recv`;
`crash i` — `job()` on worker `i` panics; the thread unwinds, dropping
its receiver clone (the ghost `lost` records the identifier);
`closeRecv i` — worker `i`'s `recv` reports disconnection (buffer empty,
sender dropped); the `while let` loop exits. -/
inductive Event where
  | submit : Job → Event
  | beginShutdown : Event
  | recvTask : Nat → Event
  | finishTask : Nat → Event
  | crash : Nat → Event
  | closeRecv : Nat → Event
deriving DecidableEq, Repr

/-- Replace worker `i`'s status. -/
def setWorker (s : PoolState) (i : Nat) (w : WStatus) : PoolState :=
  { s with workers := s.workers.set i w }

/-- The guarded small-step function: `some s'` when the event is enabled
in `s` with successor `s'`, `none` when it is not enabled. -/
def stepEvent (s : PoolState) : Event → Option PoolState
  | Event.submit t =>
    match ThreadPool.execute s t with
    | (ThreadPool.ExecOutcome.sent, s') => some s'
    | _ => none
  | Event.beginShutdown =>
    if s.senderAlive then some { s with senderAlive := false } else none
  | Event.recvTask i =>
    match s.workers[i]?, s.queue with
    | some WStatus.idle, t :: rest =>
      some { setWorker s i (WStatus.busy t) with queue := rest }
    | _, _ => none
  | Event.finishTask i =>
    match s.workers[i]? with
    | some (WStatus.busy t) =>
      if t.panics then none
      else some { setWorker s i WStatus.idle with executed := s.executed ++ [t.id] }
    | _ => none
  | Event.crash i =>
    match s.workers[i]? with
    | some (WStatus.busy t) =>
      if t.panics then
        some { setWorker s i WStatus.dead with lost := s.lost ++ [t.id] }
      else none
    | _ => none
  | Event.closeRecv i =>
    match s.workers[i]? with
    | some WStatus.idle =>
      if !s.senderAlive && s.queue.isEmpty then some (setWorker s i WStatus.done)
      else none
    | _ => none

/-- Run a schedule of events from a state; defined only when every event
in the schedule is enabled when its turn comes. -/
def run (s : PoolState) : List Event → Option PoolState
  | [] => some s
  | e :: es => (stepEvent s e).bind fun s' => run s' es

/-- Tasks carried by the successful `submit` events of a schedule. -/
def submitsOf (es : List Event) : List Job :=
  es.filterMap fun e =>
    match e with
    | Event.submit t => some t
    | _ => none

/-- Identifiers of the tasks currently being invoked by some worker. -/
def busyIds (ws : List WStatus) : List Nat :=
  ws.filterMap fun w =>
    match w with
    | WStatus.busy t => some t.id
    | _ => none

/-- Number of workers whose thread unwound out of a panicking task. -/
def deadCount (ws : List WStatus) : Nat :=
  (ws.filter (· == WStatus.dead)).length

/-- Number of workers currently invoking a task. -/
def busyCount (ws : List WStatus) : Nat :=
  (ws.filter fun w =>
    match w with
    | WStatus.busy _ => true
    | _ => false).length

/-- Identifiers of the tasks buffered in the channel. -/
def queueIds (q : List Job) : List Nat := q.map Job.id

/-- Ghost accounting: at each instant, every successfully submitted task
identifier sits in exactly one of four places — buffered in the queue, in
flight on a busy worker, recorded as executed to completion, or recorded
as lost to a worker panic.  `accounted` collects the four as a multiset. -/
def accounted (s : PoolState) : Multiset Nat :=
  (queueIds s.queue : Multiset Nat) + (busyIds s.workers : Multiset Nat)
    + (s.executed : Multiset Nat) + (s.lost : Multiset Nat)

/-- The structural invariant carried along every run: the lost list has
one entry per dead worker, and a worker vector in which every thread has
exited via the closed-queue signal forces an empty buffer. -/
def PoolInv (s : PoolState) : Prop :=
  s.lost.length = deadCount s.workers ∧
  ((∀ w ∈ s.workers, w = WStatus.done) → s.queue = [])

/-! ## Basic facts about `execute`, `shutdown`, `drop` and `new` -/

/-- `execute` never changes the worker vector. -/
theorem execute_workers (s : PoolState) (t : Job) :
    (ThreadPool.execute s t).2.workers = s.workers := by
  unfold ThreadPool.execute
  split <;> [skip; rfl]
  split <;> rfl

/-- `execute` never changes the sender slot. -/
theorem execute_senderAlive (s : PoolState) (t : Job) :
    (ThreadPool.execute s t).2.senderAlive = s.senderAlive := by
  unfold ThreadPool.execute
  split <;> [skip; rfl]
  split <;> rfl

/-- C1 (counterexample).  The claim states that an `execute` call on a pool
whose shutdown has begun signals a `PoolClosed` condition to the caller and
in particular does not silently do nothing.  On the code, `self.sender` is
`None` after `shutdown`, so the `if let Some(sender)` body is skipped: the
concrete call below returns the `skipped` outcome — no enqueue, no panic,
no signal of any kind — and leaves the pool state unchanged. -/
theorem C1_execute_after_shutdown_silently_noops :
    ThreadPool.execute (ThreadPool.shutdown (ThreadPool.new 1)).2 ⟨0, false⟩
      = (ThreadPool.ExecOutcome.skipped, (ThreadPool.shutdown (ThreadPool.new 1)).2) := by
  decide

/-- C1 (amended).  After shutdown has begun (the sender slot is empty),
`execute` silently does nothing: the task is not enqueued, nothing is
signalled, no panic occurs, and the state is returned unchanged. -/
theorem C1_execute_after_shutdown_skips (s : PoolState) (t : Job)
    (h : s.senderAlive = false) :
    ThreadPool.execute s t = (ThreadPool.ExecOutcome.skipped, s) := by
  unfold ThreadPool.execute
  simp [h]

/-- C1 (witness): the amended statement at a concrete closed pool. -/
theorem C1_witness :
    ThreadPool.execute (ThreadPool.shutdown (ThreadPool.new 2)).2 ⟨7, true⟩
      = (ThreadPool.ExecOutcome.skipped, (ThreadPool.shutdown (ThreadPool.new 2)).2) :=
  C1_execute_after_shutdown_skips (ThreadPool.shutdown (ThreadPool.new 2)).2 ⟨7, true⟩ rfl

/-- C3.  `shutdown` is idempotent: after one `shutdown` the sender slot is
empty and the worker vector is empty, and running `shutdown` again on that
state observes exactly that — it joins nothing, cannot panic, and returns
with the state unchanged. -/
theorem C3_shutdown_idempotent (s : PoolState) :
    (ThreadPool.shutdown s).2.senderAlive = false ∧
    (ThreadPool.shutdown s).2.workers = [] ∧
    ThreadPool.shutdown (ThreadPool.shutdown s).2
      = (ThreadPool.ShutdownOutcome.ok, (ThreadPool.shutdown s).2) := by
  refine ⟨rfl, rfl, ?_⟩
  unfold ThreadPool.shutdown
  simp

/-- C4.  Implicit teardown on discard is literally the same operation as an
explicit `shutdown` call (`Drop::drop` calls `self.shutdown()`): the two
agree on the outcome and on the final state, and after either one the
sender is released and every worker handle has been joined and removed. -/
theorem C4_drop_eq_shutdown (s : PoolState) :
    ThreadPool.drop s = ThreadPool.shutdown s ∧
    (ThreadPool.drop s).2.senderAlive = false ∧
    (ThreadPool.drop s).2.workers = [] :=
  ⟨rfl, rfl, rfl⟩

/-- C5 (counterexample).  The claim states that `shutdown` never itself
fails or panics, for every behaviour of the submitted tasks including a
task raising an internal failure on its worker.  Concretely: on a pool of
one worker, submit a task that panics, let the worker receive it and
unwind.  The worker thread is now dead; `shutdown`'s
`worker.join().unwrap()` receives `Err` from `join` and panics. -/
theorem C5_shutdown_panics_after_task_panic :
    (run (ThreadPool.new 1)
        [Event.submit ⟨0, true⟩, Event.recvTask 0, Event.crash 0]).map
        (fun s => (ThreadPool.shutdown s).1)
      = some ThreadPool.ShutdownOutcome.panicked := by
  decide

/-- C5 (amended).  `shutdown` blocks in its join loop until every worker
thread has terminated (`joinable`); queued or in-flight panicking jobs can
still kill workers while it blocks, so the proviso must be judged at the
quiesced state the joins actually observe.  At any such quiesced state —
the model's `shutdown` is exact there — if no worker thread died to a
panicking task, every `join` returns `Ok`, the `unwrap` never panics, and
the outcome is `ok`; a dead worker instead makes the `unwrap` panic, as
the counterexample shows. -/
theorem C5_shutdown_ok_of_no_dead_worker (s : PoolState)
    (hj : ThreadPool.joinable s)
    (h : ∀ w ∈ s.workers, w ≠ WStatus.dead) :
    (ThreadPool.shutdown s).1 = ThreadPool.ShutdownOutcome.ok := by
  unfold ThreadPool.shutdown
  simp only []
  rw [if_neg]
  simp only [List.any_eq_true, beq_iff_eq, not_exists]
  intro w hw
  exact h w hw.1 hw.2

/-- C5 (witness): the amended statement at the quiesced state reached by a
two-worker pool with zero submissions after the sender drops and both
workers observe closure — every worker has terminated and none died, so
the joins all return `Ok`. -/
theorem C5_witness :
    (ThreadPool.shutdown
      { queue := [], senderAlive := false,
        workers := [WStatus.done, WStatus.done],
        executed := [], lost := [] }).1 = ThreadPool.ShutdownOutcome.ok :=
  C5_shutdown_ok_of_no_dead_worker
    { queue := [], senderAlive := false,
      workers := [WStatus.done, WStatus.done],
      executed := [], lost := [] }
    (by unfold ThreadPool.joinable; decide) (by decide)

/-- C6.  For every `num_threads ≥ 1`, `ThreadPool::new` returns (it is a
total function: it never blocks and never fails): the resulting pool owns
exactly `num_threads` spawned workers, all sitting idle in the receive
loop, each holding a live clone of the consuming endpoint (so
`receiversAlive` equals the worker count), the queue is the fresh empty
channel buffer, and the pool retains the sole producing endpoint. -/
theorem C6_new_builds_pool (n : Nat) (h : 1 ≤ n) :
    (ThreadPool.new n).workers.length = n ∧
    (∀ w ∈ (ThreadPool.new n).workers, w = WStatus.idle) ∧
    (ThreadPool.new n).senderAlive = true ∧
    (ThreadPool.new n).queue = [] ∧
    (ThreadPool.new n).receiversAlive = n := by
  refine ⟨by simp [ThreadPool.new], ?_, rfl, rfl, ?_⟩
  · intro w hw
    exact List.eq_of_mem_replicate hw
  · unfold PoolState.receiversAlive ThreadPool.new
    simp [List.filter_replicate, WStatus.live]

/-- C6 (witness): the statement at `num_threads = 4`. -/
theorem C6_witness :
    (ThreadPool.new 4).workers.length = 4 ∧
    (∀ w ∈ (ThreadPool.new 4).workers, w = WStatus.idle) ∧
    (ThreadPool.new 4).senderAlive = true ∧
    (ThreadPool.new 4).queue = [] ∧
    (ThreadPool.new 4).receiversAlive = 4 :=
  C6_new_builds_pool 4 (by decide)

/-- C7 (counterexample).  The claim states that on every pool constructed
with at least one worker on which shutdown has not begun, the
`QueueClosed`/`expect` branch of `execute` is unreachable.  It is
reachable: from `new 1`, submit a panicking task and let the sole worker
receive it and unwind; the dead thread drops the only receiver clone, so
with the pool still open (`senderAlive = true`) the next `execute`'s send
fails and the `expect` panics. -/
theorem C7_queueClosed_reachable_in_open_pool :
    (run (ThreadPool.new 1)
        [Event.submit ⟨0, true⟩, Event.recvTask 0, Event.crash 0]).map
        (fun s => (s.senderAlive, (ThreadPool.execute s ⟨1, false⟩).1))
      = some (true, ThreadPool.ExecOutcome.panicked) := by
  decide

/-- C7 (amended).  On an open pool (`senderAlive = true`) the
`QueueClosed` branch of `execute` is unreachable as long as at least one
worker still holds its consuming endpoint — the send then succeeds and
the task is enqueued; once every consuming endpoint is gone (all workers
dead or exited) the branch is reached and is treated as fatal: the
`expect` panics rather than returning a recoverable result. -/
theorem C7_execute_open_pool (s : PoolState) (t : Job)
    (h : s.senderAlive = true) :
    (0 < s.receiversAlive →
      ThreadPool.execute s t
        = (ThreadPool.ExecOutcome.sent, { s with queue := s.queue ++ [t] })) ∧
    (s.receiversAlive = 0 →
      ThreadPool.execute s t = (ThreadPool.ExecOutcome.panicked, s)) := by
  constructor <;> intro h2 <;> unfold ThreadPool.execute <;> simp [h, h2]

/-- C7 (witness): the amended statement on a fresh one-worker pool, where
the send succeeds. -/
theorem C7_witness :
    ThreadPool.execute (ThreadPool.new 1) ⟨3, false⟩
      = (ThreadPool.ExecOutcome.sent,
         { ThreadPool.new 1 with queue := [⟨3, false⟩] }) :=
  (C7_execute_open_pool (ThreadPool.new 1) ⟨3, false⟩ rfl).1 (by decide)

/-- C10.  The precondition `workerCount ≥ 1` is not enforced:
`ThreadPool::new(0)` succeeds and returns a pool with an empty worker
vector whose every consuming endpoint has already been dropped
(`receiversAlive = 0` — the receiver created in `new` goes out of scope,
and no worker holds a clone), and on that pool every `execute` call hits
the disconnect branch of `send` and panics at the `expect` instead of
returning a recoverable condition. -/
theorem C10_new_zero_accepted_then_execute_panics :
    (ThreadPool.new 0).workers = [] ∧
    (ThreadPool.new 0).receiversAlive = 0 ∧
    ∀ t : Job, ThreadPool.execute (ThreadPool.new 0) t
        = (ThreadPool.ExecOutcome.panicked, ThreadPool.new 0) := by
  refine ⟨rfl, rfl, ?_⟩
  intro t
  rfl

/-! ## Inversion of the step function -/

/-- Inversion for a successful send inside `execute`. -/
theorem execute_sent_inv {s s' : PoolState} {t : Job}
    (h : ThreadPool.execute s t = (ThreadPool.ExecOutcome.sent, s')) :
    s.senderAlive = true ∧ 0 < s.receiversAlive ∧
      s' = { s with queue := s.queue ++ [t] } := by
  unfold ThreadPool.execute at h
  by_cases h1 : s.senderAlive = true
  · rw [if_pos h1] at h
    by_cases h2 : 0 < s.receiversAlive
    · rw [if_pos h2] at h
      simp only [Prod.mk.injEq] at h
      exact ⟨h1, h2, h.2.symm⟩
    · rw [if_neg h2] at h
      simp only [Prod.mk.injEq] at h
      exact absurd h.1 (by simp)
  · rw [if_neg h1] at h
    simp only [Prod.mk.injEq] at h
    exact absurd h.1 (by simp)

/-- Complete inversion of `stepEvent`: an enabled event is one of the six
transitions, with its guard satisfied and its successor state explicit. -/
theorem stepEvent_cases {s s' : PoolState} {e : Event}
    (h : stepEvent s e = some s') :
    (∃ t, e = Event.submit t ∧ s.senderAlive = true ∧ 0 < s.receiversAlive ∧
      s' = { s with queue := s.queue ++ [t] }) ∨
    (e = Event.beginShutdown ∧ s.senderAlive = true ∧
      s' = { s with senderAlive := false }) ∨
    (∃ i t rest, e = Event.recvTask i ∧ s.workers[i]? = some WStatus.idle ∧
      s.queue = t :: rest ∧
      s' = { setWorker s i (WStatus.busy t) with queue := rest }) ∨
    (∃ i t, e = Event.finishTask i ∧ s.workers[i]? = some (WStatus.busy t) ∧
      t.panics = false ∧
      s' = { setWorker s i WStatus.idle with executed := s.executed ++ [t.id] }) ∨
    (∃ i t, e = Event.crash i ∧ s.workers[i]? = some (WStatus.busy t) ∧
      t.panics = true ∧
      s' = { setWorker s i WStatus.dead with lost := s.lost ++ [t.id] }) ∨
    (∃ i, e = Event.closeRecv i ∧ s.workers[i]? = some WStatus.idle ∧
      s.senderAlive = false ∧ s.queue = [] ∧ s' = setWorker s i WStatus.done) := by
  cases e with
  | submit t =>
    simp only [stepEvent] at h
    split at h
    · rename_i heq
      cases h
      obtain ⟨h1, h2, h3⟩ := execute_sent_inv heq
      exact Or.inl ⟨t, rfl, h1, h2, h3⟩
    · exact absurd h (by simp)
  | beginShutdown =>
    simp only [stepEvent] at h
    split at h
    · rename_i h1
      cases h
      exact Or.inr (Or.inl ⟨rfl, h1, rfl⟩)
    · exact absurd h (by simp)
  | recvTask i =>
    simp only [stepEvent] at h
    split at h
    · rename_i hw hq
      cases h
      exact Or.inr (Or.inr (Or.inl ⟨i, _, _, rfl, hw, hq, rfl⟩))
    · exact absurd h (by simp)
  | finishTask i =>
    simp only [stepEvent] at h
    split at h
    · rename_i t hw
      split at h
      · exact absurd h (by simp)
      · rename_i hp
        cases h
        exact Or.inr (Or.inr (Or.inr (Or.inl
          ⟨i, t, rfl, hw, Bool.not_eq_true _ ▸ hp, rfl⟩)))
    · exact absurd h (by simp)
  | crash i =>
    simp only [stepEvent] at h
    split at h
    · rename_i t hw
      split at h
      · rename_i hp
        cases h
        exact Or.inr (Or.inr (Or.inr (Or.inr (Or.inl ⟨i, t, rfl, hw, hp, rfl⟩))))
      · exact absurd h (by simp)
    · exact absurd h (by simp)
  | closeRecv i =>
    simp only [stepEvent] at h
    split at h
    · rename_i hw
      split at h
      · rename_i hcond
        cases h
        simp only [Bool.and_eq_true, Bool.not_eq_true', List.isEmpty_iff] at hcond
        exact Or.inr (Or.inr (Or.inr (Or.inr (Or.inr
          ⟨i, rfl, hw, hcond.1, hcond.2, rfl⟩))))
      · exact absurd h (by simp)
    · exact absurd h (by simp)

/-! ## Structural invariants of runs -/

/-- No event changes the number of spawned workers. -/
theorem stepEvent_workers_length {s s' : PoolState} {e : Event}
    (h : stepEvent s e = some s') : s'.workers.length = s.workers.length := by
  rcases stepEvent_cases h with
    ⟨t, _, _, _, rfl⟩ | ⟨_, _, rfl⟩ | ⟨i, t, rest, _, _, _, rfl⟩ |
    ⟨i, t, _, _, _, rfl⟩ | ⟨i, t, _, _, _, rfl⟩ | ⟨i, _, _, _, _, rfl⟩ <;>
    simp [setWorker]

/-- A run never changes the number of spawned workers. -/
theorem run_workers_length {s s' : PoolState} {es : List Event}
    (h : run s es = some s') : s'.workers.length = s.workers.length := by
  induction es generalizing s with
  | nil => cases h; rfl
  | cons e es ih =>
    simp only [run, Option.bind_eq_bind] at h
    rcases Option.bind_eq_some.mp h with ⟨s₁, h₁, h₂⟩
    rw [ih h₂, stepEvent_workers_length h₁]

/-- Once a worker has exited its loop (`done`), no event of the system
changes its status: the loop is never re-entered. -/
theorem stepEvent_done_stable {s s' : PoolState} {e : Event} {j : Nat}
    (h : stepEvent s e = some s') (hd : s.workers[j]? = some WStatus.done) :
    s'.workers[j]? = some WStatus.done := by
  rcases stepEvent_cases h with
    ⟨t, _, _, _, rfl⟩ | ⟨_, _, rfl⟩ | ⟨i, t, rest, _, hw, _, rfl⟩ |
    ⟨i, t, _, hw, _, rfl⟩ | ⟨i, t, _, hw, _, rfl⟩ | ⟨i, _, hw, _, _, rfl⟩ <;>
    simp only [setWorker] <;>
    first
    | exact hd
    | · have hne : i ≠ j := fun hij => by rw [hij, hd] at hw; cases hw
        rw [List.getElem?_set_ne hne]
        exact hd

/-- The number of simultaneously executing tasks never exceeds the number
of spawned workers. -/
theorem busyCount_le_length (ws : List WStatus) : busyCount ws ≤ ws.length :=
  List.length_filter_le _ _

/-- C8.  Every reachable state of a pool built with `n` workers obeys the
worker state machine: at most one task is in flight per worker, so at
most `n` tasks execute simultaneously; a worker that is executing a task
cannot perform a receive until it finishes; and a worker that has
observed the closed-queue signal (`done`) is terminal — no event of the
system ever changes its status again. -/
theorem C8_worker_state_machine (n : Nat) (es : List Event) (s' : PoolState)
    (hrun : run (ThreadPool.new n) es = some s') :
    busyCount s'.workers ≤ n ∧
    (∀ (i : Nat) (t : Job), s'.workers[i]? = some (WStatus.busy t) →
      stepEvent s' (Event.recvTask i) = none) ∧
    (∀ j : Nat, s'.workers[j]? = some WStatus.done →
      ∀ (e : Event) (s'' : PoolState), stepEvent s' e = some s'' →
        s''.workers[j]? = some WStatus.done) := by
  refine ⟨?_, ?_, ?_⟩
  · have h1 := busyCount_le_length s'.workers
    have h2 := run_workers_length hrun
    simp [ThreadPool.new] at h2
    omega
  · intro i t hb
    cases hq : s'.queue <;> simp [stepEvent, hb, hq]
  · intro j hd e s'' hstep
    exact stepEvent_done_stable hstep hd

/-- C8 (witness): the state machine bound instantiated on the reachable
state of a two-worker pool in which worker 0 is busy. -/
theorem C8_witness :
    busyCount { queue := [], senderAlive := true,
                workers := [WStatus.busy ⟨5, false⟩, WStatus.idle],
                executed := [], lost := [] : PoolState }.workers ≤ 2 :=
  (C8_worker_state_machine 2 [Event.submit ⟨5, false⟩, Event.recvTask 0]
    { queue := [], senderAlive := true,
      workers := [WStatus.busy ⟨5, false⟩, WStatus.idle],
      executed := [], lost := [] } (by decide)).1

/-! ## Termination of shutdown with an empty queue -/

/-- With the sender dropped and the buffer empty, each still-idle worker's
`recv` resolves to the closed signal in turn: closing workers
`k, k+1, …, k+m-1` one after the other turns the whole vector `done`. -/
theorem run_close_all (m : Nat) : ∀ (k : Nat) (q l : List Nat),
    run { queue := [], senderAlive := false,
          workers := List.replicate k WStatus.done ++ List.replicate m WStatus.idle,
          executed := q, lost := l }
        ((List.range' k m).map Event.closeRecv)
      = some { queue := [], senderAlive := false,
               workers := List.replicate (k + m) WStatus.done,
               executed := q, lost := l } := by
  induction m with
  | zero => intro k q l; simp [run]
  | succ m ih =>
    intro k q l
    rw [List.range'_succ, List.map_cons]
    have hw : (List.replicate k WStatus.done ++
        List.replicate (m + 1) WStatus.idle)[k]? = some WStatus.idle := by
      rw [List.getElem?_append_right (by simp), List.getElem?_replicate]
      simp
    have hstep : stepEvent
        { queue := [], senderAlive := false,
          workers := List.replicate k WStatus.done ++ List.replicate (m + 1) WStatus.idle,
          executed := q, lost := l } (Event.closeRecv k)
        = some { queue := [], senderAlive := false,
                 workers := List.replicate (k + 1) WStatus.done ++ List.replicate m WStatus.idle,
                 executed := q, lost := l } := by
      simp only [stepEvent, hw]
      simp [setWorker, List.set_append, List.replicate_succ, List.replicate_succ',
        List.append_assoc]
      rw [← List.singleton_append, ← List.append_assoc, ← List.replicate_succ',
        List.replicate_succ, List.cons_append]
    rw [run, hstep, Option.some_bind, ih (k + 1) q l]
    have hkm : k + 1 + m = k + (m + 1) := by omega
    rw [hkm]

/-- C9.  Submitting zero tasks and then shutting down terminates: from a
fresh pool of `n` workers, dropping the sender followed by each worker
observing the closed-queue signal is a complete, enabled schedule; it ends
with every worker `done`, so every `join` in `shutdown` returns and
`shutdown` completes with the `ok` outcome rather than blocking forever. -/
theorem C9_shutdown_with_zero_tasks_terminates (n : Nat) :
    ∃ s' : PoolState,
      run (ThreadPool.new n)
          (Event.beginShutdown :: (List.range n).map Event.closeRecv) = some s' ∧
      (∀ w ∈ s'.workers, w = WStatus.done) ∧
      ThreadPool.shutdown s'
        = (ThreadPool.ShutdownOutcome.ok,
           { s' with senderAlive := false, workers := [] }) := by
  refine ⟨{ queue := [], senderAlive := false,
            workers := List.replicate n WStatus.done,
            executed := [], lost := [] }, ?_, ?_, ?_⟩
  · rw [List.range_eq_range', run]
    have hstep : stepEvent (ThreadPool.new n) Event.beginShutdown
        = some { queue := [], senderAlive := false,
                 workers := List.replicate 0 WStatus.done ++ List.replicate n WStatus.idle,
                 executed := [], lost := [] } := by
      simp [stepEvent, ThreadPool.new]
    rw [hstep, Option.some_bind, run_close_all n 0 [] []]
    simp
  · intro w hw
    exact List.eq_of_mem_replicate hw
  · unfold ThreadPool.shutdown
    rw [if_neg]
    simp [List.any_eq_true, List.mem_replicate]

/-! ## Ghost accounting: exactly-once drain -/

/-- Updating one position of a list shifts a `filterMap` image by exactly
the images of the old and new elements (as multisets). -/
theorem coe_filterMap_set {α β : Type} (f : α → Option β) :
    ∀ (l : List α) (i : Nat) (a b : α), l[i]? = some a →
      (List.filterMap f (l.set i b) : Multiset β) + ((f a).toList : Multiset β)
        = (List.filterMap f l : Multiset β) + ((f b).toList : Multiset β) := by
  intro l
  induction l with
  | nil => intro i a b h; simp at h
  | cons c tl ih =>
    intro i a b h
    cases i with
    | zero =>
      simp only [List.getElem?_cons_zero, Option.some.injEq] at h
      subst h
      simp only [List.set_cons_zero, List.filterMap_cons]
      cases hfc : f c <;> cases hfb : f b <;> simp [hfc, hfb]
      · rw [add_comm, Multiset.singleton_add, Multiset.cons_coe]
      · rw [add_comm, Multiset.singleton_add, Multiset.cons_coe]
      · rw [← Multiset.cons_coe, ← Multiset.cons_coe]
        rw [add_comm, Multiset.singleton_add]
        conv_rhs => rw [add_comm, Multiset.singleton_add]
        exact Multiset.cons_swap _ _ _
    | succ i =>
      simp only [List.getElem?_cons_succ] at h
      simp only [List.set_cons_succ, List.filterMap_cons]
      cases hfc : f c
      · exact ih i a b h
      · have hih := ih i a b h
        simp only [← Multiset.cons_coe, Multiset.cons_add]
        rw [hih]

/-- Updating one position of a list shifts a `countP` by the predicate's
value on the old and new elements. -/
theorem countP_set {α : Type} (p : α → Bool) :
    ∀ (l : List α) (i : Nat) (a b : α), l[i]? = some a →
      (l.set i b).countP p + (if p a then 1 else 0)
        = l.countP p + (if p b then 1 else 0) := by
  intro l
  induction l with
  | nil => intro i a b h; simp at h
  | cons c tl ih =>
    intro i a b h
    cases i with
    | zero =>
      simp only [List.getElem?_cons_zero, Option.some.injEq] at h
      subst h
      simp only [List.set_cons_zero, List.countP_cons]
      omega
    | succ i =>
      simp only [List.getElem?_cons_succ] at h
      simp only [List.set_cons_succ, List.countP_cons]
      have := ih i a b h
      omega

/-- The element written by `set` is a member of the updated list, as soon
as the index is in range. -/
theorem mem_set_self {l : List WStatus} {i : Nat} {a : WStatus} (b : WStatus)
    (h : l[i]? = some a) : b ∈ l.set i b := by
  have hb : (l.set i b)[i]? = some b := by
    rw [List.getElem?_set_self', h]
    rfl
  exact List.getElem?_mem hb

/-- If every worker has exited its loop, no receiver clone survives. -/
theorem receiversAlive_eq_zero_of_allDone {s : PoolState}
    (h : ∀ w ∈ s.workers, w = WStatus.done) : s.receiversAlive = 0 := by
  rw [PoolState.receiversAlive, List.length_eq_zero, List.filter_eq_nil_iff]
  intro w hw
  rw [h w hw]
  simp [WStatus.live]

/-- Every enabled event preserves the structural invariant. -/
theorem stepEvent_poolInv {s s' : PoolState} {e : Event}
    (h : stepEvent s e = some s') (hinv : PoolInv s) : PoolInv s' := by
  obtain ⟨hlen, hqd⟩ := hinv
  rcases stepEvent_cases h with
    ⟨t, rfl, _, hrecv, rfl⟩ | ⟨rfl, _, rfl⟩ | ⟨i, t, rest, rfl, hw, hq, rfl⟩ |
    ⟨i, t, rfl, hw, _, rfl⟩ | ⟨i, t, rfl, hw, _, rfl⟩ | ⟨i, rfl, hw, _, hq, rfl⟩
  · refine ⟨hlen, fun hall => ?_⟩
    have := receiversAlive_eq_zero_of_allDone hall
    simp only [PoolState.receiversAlive] at this hrecv
    omega
  · exact ⟨hlen, fun hall => hqd hall⟩
  · constructor
    · have hc := countP_set (· == WStatus.dead) s.workers i WStatus.idle (WStatus.busy t) hw
      simp only [setWorker, deadCount, ← List.countP_eq_length_filter] at hlen ⊢
      simp at hc
      omega
    · intro hall
      have hmem := mem_set_self (WStatus.busy t) hw
      have := hall (WStatus.busy t) hmem
      cases this
  · constructor
    · have hc := countP_set (· == WStatus.dead) s.workers i (WStatus.busy t) WStatus.idle hw
      simp only [setWorker, deadCount, ← List.countP_eq_length_filter] at hlen ⊢
      simp at hc
      omega
    · intro hall
      have hmem := mem_set_self WStatus.idle hw
      have := hall WStatus.idle hmem
      cases this
  · constructor
    · have hc := countP_set (· == WStatus.dead) s.workers i (WStatus.busy t) WStatus.dead hw
      simp only [setWorker, deadCount, ← List.countP_eq_length_filter] at hlen ⊢
      simp at hc
      simp [List.length_append]
      omega
    · intro hall
      have hmem := mem_set_self WStatus.dead hw
      have := hall WStatus.dead hmem
      cases this
  · constructor
    · have hc := countP_set (· == WStatus.dead) s.workers i WStatus.idle WStatus.done hw
      simp only [setWorker, deadCount, ← List.countP_eq_length_filter] at hlen ⊢
      simp at hc
      omega
    · intro _
      exact hq

/-- Every enabled event conserves the ghost accounting: the multiset of
accounted identifiers grows exactly by the identifier of a successfully
submitted task and is otherwise unchanged — tasks move between the queue,
a busy worker, the executed record and the lost record, but are never
duplicated and never disappear. -/
theorem stepEvent_accounted {s s' : PoolState} {e : Event}
    (h : stepEvent s e = some s') :
    accounted s' = accounted s + ((submitsOf [e]).map Job.id : Multiset Nat) := by
  rcases stepEvent_cases h with
    ⟨t, rfl, _, _, rfl⟩ | ⟨rfl, _, rfl⟩ | ⟨i, t, rest, rfl, hw, hq, rfl⟩ |
    ⟨i, t, rfl, hw, _, rfl⟩ | ⟨i, t, rfl, hw, _, rfl⟩ | ⟨i, rfl, hw, _, hq, rfl⟩
  · simp only [accounted, queueIds, submitsOf, List.filterMap_cons, List.filterMap_nil,
      List.map_append, List.map_cons, List.map_nil]
    rw [← Multiset.coe_add]
    abel
  · simp [accounted, submitsOf]
  · have hms : (busyIds (s.workers.set i (WStatus.busy t)) : Multiset Nat)
        = (busyIds s.workers : Multiset Nat) + {t.id} := by
      have h0 := coe_filterMap_set
        (fun w => match w with | WStatus.busy u => some u.id | _ => none)
        s.workers i WStatus.idle (WStatus.busy t) hw
      simpa [busyIds] using h0
    simp only [accounted, setWorker, hq, queueIds, List.map_cons, submitsOf,
      List.filterMap_cons, List.filterMap_nil, List.map_nil]
    rw [hms, ← List.singleton_append, ← Multiset.coe_add]
    simp only [Multiset.coe_nil, add_zero, Multiset.coe_singleton]
    abel
  · have hms : (busyIds (s.workers.set i WStatus.idle) : Multiset Nat) + {t.id}
        = (busyIds s.workers : Multiset Nat) := by
      have h0 := coe_filterMap_set
        (fun w => match w with | WStatus.busy u => some u.id | _ => none)
        s.workers i (WStatus.busy t) WStatus.idle hw
      simpa [busyIds] using h0
    simp only [accounted, setWorker, submitsOf, List.filterMap_cons, List.filterMap_nil,
      List.map_nil]
    rw [← hms, ← Multiset.coe_add]
    simp only [Multiset.coe_nil, add_zero, Multiset.coe_singleton]
    abel
  · have hms : (busyIds (s.workers.set i WStatus.dead) : Multiset Nat) + {t.id}
        = (busyIds s.workers : Multiset Nat) := by
      have h0 := coe_filterMap_set
        (fun w => match w with | WStatus.busy u => some u.id | _ => none)
        s.workers i (WStatus.busy t) WStatus.dead hw
      simpa [busyIds] using h0
    simp only [accounted, setWorker, submitsOf, List.filterMap_cons, List.filterMap_nil,
      List.map_nil]
    rw [← hms, ← Multiset.coe_add]
    simp only [Multiset.coe_nil, add_zero]
    abel
  · have hms : (busyIds (s.workers.set i WStatus.done) : Multiset Nat)
        = (busyIds s.workers : Multiset Nat) := by
      have h0 := coe_filterMap_set
        (fun w => match w with | WStatus.busy u => some u.id | _ => none)
        s.workers i WStatus.idle WStatus.done hw
      simpa [busyIds] using h0
    simp [accounted, setWorker, submitsOf, hms]

/-- Ghost accounting along a whole run: the invariant is carried, and the
accounted multiset ends as the initial one plus exactly the identifiers of
the successfully submitted tasks. -/
theorem run_accounted {es : List Event} : ∀ {s s' : PoolState},
    run s es = some s' → PoolInv s →
    PoolInv s' ∧
      accounted s' = accounted s + ((submitsOf es).map Job.id : Multiset Nat) := by
  induction es with
  | nil =>
    intro s s' h hinv
    cases h
    exact ⟨hinv, by simp [submitsOf]⟩
  | cons e es ih =>
    intro s s' h hinv
    simp only [run] at h
    rcases Option.bind_eq_some.mp h with ⟨s₁, h₁, h₂⟩
    obtain ⟨hinv', hacc'⟩ := ih h₂ (stepEvent_poolInv h₁ hinv)
    refine ⟨hinv', ?_⟩
    rw [hacc', stepEvent_accounted h₁]
    cases e with
    | submit t =>
      simp only [submitsOf, List.filterMap_cons, List.filterMap_nil,
        List.map_cons, List.map_nil]
      rw [show (t.id :: List.map Job.id (List.filterMap
            (fun e => match e with | Event.submit t => some t | _ => none) es))
          = [t.id] ++ List.map Job.id (List.filterMap
            (fun e => match e with | Event.submit t => some t | _ => none) es)
          from rfl]
      rw [← Multiset.coe_add]
      abel
    | beginShutdown => simp [submitsOf, List.filterMap_cons]
    | recvTask i => simp [submitsOf, List.filterMap_cons]
    | finishTask i => simp [submitsOf, List.filterMap_cons]
    | crash i => simp [submitsOf, List.filterMap_cons]
    | closeRecv i => simp [submitsOf, List.filterMap_cons]

/-- C2.  Exactly-once drain: take any schedule of the system starting from
a fresh pool of `n` workers — submissions succeeding before shutdown,
workers receiving, finishing or crashing, the sender being dropped,
workers observing closure — that ends in a state where every worker has
exited via the closed-queue signal (which is exactly the condition for
`shutdown`'s joins to have all returned with outcome `ok`).  Then the
multiset of identifiers recorded by completed tasks equals the multiset of
identifiers of all successfully submitted tasks: every submitted task ran
to completion exactly once, on exactly one worker — no loss, no
duplication, regardless of order. -/
theorem C2_drain_exactly_once (n : Nat) (es : List Event) (s' : PoolState)
    (hrun : run (ThreadPool.new n) es = some s')
    (hdone : ∀ w ∈ s'.workers, w = WStatus.done) :
    (s'.executed : Multiset Nat) = ((submitsOf es).map Job.id : Multiset Nat) := by
  have hinv0 : PoolInv (ThreadPool.new n) := by
    constructor
    · simp only [ThreadPool.new, deadCount]
      rw [List.filter_replicate]
      simp
    · intro _
      rfl
  obtain ⟨⟨hlost, hqe⟩, hacc⟩ := run_accounted hrun hinv0
  have hq : s'.queue = [] := hqe hdone
  have hbusy : busyIds s'.workers = [] := by
    rw [busyIds, List.filterMap_eq_nil_iff]
    intro w hw
    rw [hdone w hw]
  have hdead : deadCount s'.workers = 0 := by
    rw [deadCount, List.length_eq_zero, List.filter_eq_nil_iff]
    intro w hw
    rw [hdone w hw]
    simp
  have hlost0 : s'.lost = [] := List.length_eq_zero.mp (by rw [hlost, hdead])
  have hbusy0 : busyIds (ThreadPool.new n).workers = [] := by
    rw [busyIds, List.filterMap_eq_nil_iff]
    intro w hw
    rw [List.eq_of_mem_replicate hw]
  simp only [accounted, hq, hbusy, hlost0, queueIds, ThreadPool.new, hbusy0,
    List.map_nil, Multiset.coe_nil, add_zero, zero_add] at hacc
  rw [show busyIds (List.replicate n WStatus.idle) = [] from hbusy0] at hacc
  simpa using hacc

/-- C2 (witness): a two-worker pool, two recorded tasks, full drain; the
executed multiset equals the submitted multiset. -/
theorem C2_witness :
    (({ queue := [], senderAlive := false,
        workers := [WStatus.done, WStatus.done],
        executed := [0, 1], lost := [] : PoolState }).executed : Multiset Nat)
      = ((submitsOf [Event.submit ⟨0, false⟩, Event.submit ⟨1, false⟩,
            Event.recvTask 0, Event.recvTask 1, Event.finishTask 0,
            Event.finishTask 1, Event.beginShutdown,
            Event.closeRecv 0, Event.closeRecv 1]).map Job.id : Multiset Nat) :=
  C2_drain_exactly_once 2
    [Event.submit ⟨0, false⟩, Event.submit ⟨1, false⟩,
      Event.recvTask 0, Event.recvTask 1, Event.finishTask 0,
      Event.finishTask 1, Event.beginShutdown,
      Event.closeRecv 0, Event.closeRecv 1]
    { queue := [], senderAlive := false,
      workers := [WStatus.done, WStatus.done],
      executed := [0, 1], lost := [] }
    (by decide) (by decide)
